import Mathlib

/-!
Shallow embedding of `src/nst/train.py` (neural style transfer training driver).

Modelling conventions:
* Pixel and loss values are rationals (`ℚ`); tensors are flat lists of values.
* The VGG19 feature extractor (defined in `nst/models/vgg19`, outside `src/`)
  is treated as an abstract function producing, per stage `conv1..conv5`, an
  ordered list of feature maps, exactly as `model(x)` returns a mapping
  `stageName -> list of activations` in the source.
* `ContentLoss`/`StyleLoss` (defined in `nst/losses`, outside `src/`) are
  abstract scoring functions `FeatureMap → ℚ`; the claims below concern how
  `train.py` combines and wires them, which is in `src/`.
* The LBFGS optimizer is the external quasi-Newton capability of the spec:
  one outer `optimizer.step(closure)` evaluates the closure at least once and
  interleaves parameter updates with closure re-evaluations, ending with an
  update when any update is made.  A step is parameterized by the list of
  (externally chosen) updates it applies to the candidate image.
-/

namespace NST

abbrev Image := List ℚ

abbrev FeatureMap := List ℚ

/-- `x.data.clamp_(0, 1)` on a single element. -/
def clampPixel (v : ℚ) : ℚ := max 0 (min 1 v)

/-- `x.data.clamp_(0, 1)`: clamp every pixel of the image into [0,1]. -/
def clampImage (img : Image) : Image := img.map clampPixel

/-- The mapping `stageName -> ordered list of activations` returned by the
VGG19 model's forward pass (`outputs = model(x)` in the source). -/
structure StageOutputs where
  conv1 : List FeatureMap
  conv2 : List FeatureMap
  conv3 : List FeatureMap
  conv4 : List FeatureMap
  conv5 : List FeatureMap

/-- `outputs[f"conv{i}"]` for `i` in 1..5 (any other index is out of range and
modelled as an empty stage). -/
def StageOutputs.stage (o : StageOutputs) (i : Nat) : List FeatureMap :=
  match i with
  | 1 => o.conv1
  | 2 => o.conv2
  | 3 => o.conv3
  | 4 => o.conv4
  | 5 => o.conv5
  | _ => []

/-! ## Device selection (train.py line 37) -/

inductive Device where
  | cuda : Device
  | cpu : Device
deriving DecidableEq

/-- `device = torch.device("cuda") if (torch.cuda.is_available() and args.use_gpu)
else torch.device("cpu")` (train.py line 37). -/
def selectDevice (cudaAvailable useGpu : Bool) : Device :=
  if cudaAvailable && useGpu then Device.cuda else Device.cpu

/-- The device received by each device-consuming operation performed by `main`
after line 37: the two `image_loader` calls, the `.to(device)` on `mean`, `std`
and the model, the weight loading, and the `torch.randn(..., device=device)`
branch.  Every call site passes the single local variable `device` computed
once at line 37; no later statement rebinds it. -/
def mainDeviceTrace (cudaAvailable useGpu : Bool) : List Device :=
  let device := selectDevice cudaAvailable useGpu
  [device, device, device, device, device, device, device]

/-! ## Initial candidate selection (train.py lines 44-50) -/

/-- Lines 44-50 of `main`: the candidate is the content clone when
`args.input_image == "content"`, the style clone when it equals `"style"`,
and otherwise a fresh standard-normal noise tensor (`torch.randn`), whose
sampled value we pass in as `noise`.  No branch validates or rejects the
string. -/
def initialCandidate (inputImage : String) (content style noise : Image) : Image :=
  if inputImage = "content" then content
  else if inputImage = "style" then style
  else noise

/-! ## Layer selection for targets and closure (train.py lines 66-70, 196-200) -/

/-- Line 67: `ContentLoss(content_outputs["conv4"][1], device)` — the feature
map the content-loss target is captured from. -/
def mainContentTarget (contentOutputs : StageOutputs) : FeatureMap :=
  contentOutputs.conv4.getD 1 []

/-- Lines 69-70: `for i in range(1, 6): StyleLoss(style_outputs[f"conv{i}"][0])`
— the feature maps the five style-loss targets are captured from, in order. -/
def mainStyleTargets (styleOutputs : StageOutputs) : List FeatureMap :=
  (List.range 5).map (fun i => (styleOutputs.stage (i + 1)).getD 0 [])

/-- Line 197 of the closure: `content_feature_maps = outputs["conv4"][1]`. -/
def closureContentFM (outputs : StageOutputs) : FeatureMap :=
  outputs.conv4.getD 1 []

/-- Lines 198-200 of the closure:
`for i in range(1, 6): style_feature_maps.append(outputs[f"conv{i}"][0])`. -/
def closureStyleFMs (outputs : StageOutputs) : List FeatureMap :=
  (List.range 5).map (fun i => (outputs.stage (i + 1)).getD 0 [])

/-- Modelled from the spec: "content uses the second activation of stage 4"
— the designated content feature map, stated from the spec's words. -/
def specContentSelect (outputs : StageOutputs) : FeatureMap :=
  outputs.conv4.getD 1 []

/-- Modelled from the spec: "style uses the first activation of each of the
five stages", in stage order conv1 through conv5. -/
def specStyleSelect (outputs : StageOutputs) : List FeatureMap :=
  [outputs.conv1.getD 0 [], outputs.conv2.getD 0 [], outputs.conv3.getD 0 [],
   outputs.conv4.getD 0 [], outputs.conv5.getD 0 []]

/-! ## The closure's loss computation (train.py lines 202-210) -/

/-- Lines 205-207: `total_style_loss = 0; for feature_map, style_loss in
zip(style_feature_maps, style_losses): total_style_loss += (style_weight *
style_loss(feature_map))`. -/
def closureTotalStyleLoss (styleWeight : ℚ) (fms : List FeatureMap)
    (styleLossFns : List (FeatureMap → ℚ)) : ℚ :=
  (fms.zip styleLossFns).foldl (fun acc p => acc + styleWeight * p.2 p.1) 0

/-- Lines 190-210 of the closure, as a pure loss computation: clamp the
candidate, run the forward pass, select the designated feature maps, and
combine `loss = (alpha * total_content_loss) + (beta * total_style_loss)`. -/
def closureEval (modelF : Image → StageOutputs) (contentLossFn : FeatureMap → ℚ)
    (styleLossFns : List (FeatureMap → ℚ)) (alpha beta styleWeight : ℚ)
    (x : Image) : ℚ :=
  let outputs := modelF (clampImage x)
  let totalContentLoss := contentLossFn (closureContentFM outputs)
  let totalStyleLoss := closureTotalStyleLoss styleWeight (closureStyleFMs outputs) styleLossFns
  alpha * totalContentLoss + beta * totalStyleLoss

/-! ## The optimization loop (train.py lines 185-225)

An outer `optimizer.step(closure)` is modelled by the list of parameter
updates the (external) LBFGS optimizer applies during that step.  Per the
torch LBFGS protocol the closure is evaluated once up front, re-evaluated
after each update except the last, and each closure evaluation begins with
the in-place clamp `x.data.clamp_(0, 1)` (line 193); the step's last action
on the candidate is an update.  When the optimizer makes no update the step
is just the single initial closure evaluation. -/

/-- The candidate image after one `optimizer.step(closure)`, together with the
list of images seen by the forward pass `model(x)` inside each closure
evaluation of that step (each one is the freshly clamped candidate). -/
def stepRun (updates : List (Image → Image)) (x : Image) : List Image × Image :=
  match updates with
  | [] => ([clampImage x], clampImage x)
  | us => us.foldl (fun acc u => let y := clampImage acc.2; (acc.1 ++ [y], u y)) ([], x)

/-- The candidate image at the top of the outer loop after `k` completed
optimizer steps (before any further clamp). -/
def candidateAfterStep (optUpdates : Nat → List (Image → Image)) (x : Image)
    (k : Nat) : Image :=
  (List.range k).foldl (fun acc i => (stepRun (optUpdates i) acc).2) x

/-- `train` (lines 185-225): run `iterations` outer optimizer steps, then the
final correction `x.data.clamp_(0, 1)` (line 224), and return the candidate. -/
def trainRun (optUpdates : Nat → List (Image → Image)) (iterations : Nat)
    (x : Image) : Image :=
  clampImage (candidateAfterStep optUpdates x iterations)

/-- All images passed to the forward pass `model(x)` across every closure
evaluation of every outer step of `train`. -/
def trainForwardInputs (optUpdates : Nat → List (Image → Image)) (iterations : Nat)
    (x : Image) : List Image :=
  ((List.range iterations).foldl
    (fun acc i =>
      let s := stepRun (optUpdates i) acc.2
      (acc.1 ++ s.1, s.2))
    (([] : List Image), x)).1

/-! ## Weight loading (train.py lines 101-161)

State dicts are association lists from parameter names to tensors; a tensor
is modelled by its shape together with an abstract payload distinguishing
values. -/

structure PTensor where
  shape : List Nat
  val : Int
deriving DecidableEq

abbrev StateDict := List (String × PTensor)

/-- `d[k]` lookup in a Python dict modelled as an association list. -/
def dictLookup (d : StateDict) (k : String) : Option PTensor :=
  match d with
  | [] => none
  | e :: rest => if e.1 = k then some e.2 else dictLookup rest k

/-- `d[k] = v` assignment in a Python dict: replace the binding when the key
is present, append it otherwise. -/
def dictSet (d : StateDict) (k : String) (v : PTensor) : StateDict :=
  match d with
  | [] => [(k, v)]
  | e :: rest => if e.1 = k then (k, v) :: rest else e :: dictSet rest k v

/-- The hard-coded correspondence table `matching_keys` of
`load_vgg19_weights` (train.py lines 114-151): extractor parameter name to
torchvision `vgg19().features` parameter name. -/
def matching_keys : List (String × String) :=
  [("conv1.conv1.weight", "0.weight"), ("conv1.conv1.bias", "0.bias"),
   ("conv1.conv2.weight", "2.weight"), ("conv1.conv2.bias", "2.bias"),
   ("conv2.conv1.weight", "5.weight"), ("conv2.conv1.bias", "5.bias"),
   ("conv2.conv2.weight", "7.weight"), ("conv2.conv2.bias", "7.bias"),
   ("conv3.conv1.weight", "10.weight"), ("conv3.conv1.bias", "10.bias"),
   ("conv3.conv2.weight", "12.weight"), ("conv3.conv2.bias", "12.bias"),
   ("conv3.conv3.weight", "14.weight"), ("conv3.conv3.bias", "14.bias"),
   ("conv3.conv4.weight", "16.weight"), ("conv3.conv4.bias", "16.bias"),
   ("conv4.conv1.weight", "19.weight"), ("conv4.conv1.bias", "19.bias"),
   ("conv4.conv2.weight", "21.weight"), ("conv4.conv2.bias", "21.bias"),
   ("conv4.conv3.weight", "23.weight"), ("conv4.conv3.bias", "23.bias"),
   ("conv4.conv4.weight", "25.weight"), ("conv4.conv4.bias", "25.bias"),
   ("conv5.conv1.weight", "28.weight"), ("conv5.conv1.bias", "28.bias"),
   ("conv5.conv2.weight", "30.weight"), ("conv5.conv2.bias", "30.bias"),
   ("conv5.conv3.weight", "32.weight"), ("conv5.conv3.bias", "32.bias"),
   ("conv5.conv4.weight", "34.weight"), ("conv5.conv4.bias", "34.bias")]

inductive LoadError where
  | keyError (k : String) : LoadError
  | stateDictError : LoadError
deriving DecidableEq

/-- Lines 156-157: `for key, value in matching_keys.items(): model_dict[key] =
pretrained_dict[value]`.  Indexing a missing `value` in `pretrained_dict`
raises `KeyError`, aborting the loop at the first missing identifier. -/
def applyMatching (keys : List (String × String)) (pretrainedDict modelDict : StateDict) :
    Except LoadError StateDict :=
  match keys with
  | [] => Except.ok modelDict
  | kv :: rest =>
    match dictLookup pretrainedDict kv.2 with
    | none => Except.error (LoadError.keyError kv.2)
    | some t => applyMatching rest pretrainedDict (dictSet modelDict kv.1 t)

/-- `model.load_state_dict(model_dict)` (line 159) under the default strict
mode: it raises unless the supplied keys are exactly the model's own keys and every
tensor's shape matches the model's parameter of the same name.  `modelDict`
holds the model's own parameters (names and shapes) as captured by
`model.state_dict()` at line 154. -/
def load_state_dict (modelDict md : StateDict) : Except LoadError StateDict :=
  if md.all (fun pr => (dictLookup modelDict pr.1).isSome)
      && modelDict.all (fun pr =>
          match dictLookup md pr.1 with
          | some t => t.shape = pr.2.shape
          | none => false)
  then Except.ok md
  else Except.error LoadError.stateDictError

/-- `load_vgg19_weights` (lines 101-161): overwrite the model's state dict
with the pretrained tensors named by `matching_keys`, then commit it through
`model.load_state_dict`.  `pretrainedDict` is the state dict of the external
`vgg19(pretrained=True).features`; `modelDict` is `model.state_dict()`. -/
def load_vgg19_weights (pretrainedDict modelDict : StateDict) :
    Except LoadError StateDict :=
  match applyMatching matching_keys pretrainedDict modelDict with
  | Except.error e => Except.error e
  | Except.ok md => load_state_dict modelDict md

/-- Modelled from the spec: the learnable parameters of the extractor (the
`VGG19` module of `nst/models/vgg19`, not under `src/`) — five convolutional
stages with 2, 2, 4, 4, 4 convolution layers respectively (the canonical
architecture with "2-4 convolution+activation pairs" per stage), each
convolution contributing a weight and a bias named after its stage and
position within the stage. -/
def vgg19StageConvCounts : List Nat := [2, 2, 4, 4, 4]

/-- Modelled from the spec: the full list of learnable parameter names of the
extractor, derived from the five-stage layout of `vgg19StageConvCounts`. -/
def vgg19ParamNames : List String :=
  (List.range 5).flatMap (fun s =>
    (List.range (vgg19StageConvCounts.getD s 0)).flatMap (fun j =>
      let base := "conv" ++ toString (s + 1) ++ ".conv" ++ toString (j + 1)
      [base ++ ".weight", base ++ ".bias"]))

/-! ## The main pipeline (train.py lines 23-79)

`mainRun` threads the steps of `main` that the claims depend on, in source
order: candidate initialization (lines 44-50), weight loading (line 58,
which can raise), the two target-capturing forward passes (lines 63-64) and
the optimization loop (line 73).  A raised loading error propagates out of
`main`, so nothing after line 58 runs in that case. -/

def mainRun (pretrainedDict modelDict : StateDict) (_modelF : Image → StageOutputs)
    (content style noise : Image) (inputImage : String)
    (optUpdates : Nat → List (Image → Image)) (iterations : Nat) :
    Except LoadError Image :=
  let x := initialCandidate inputImage content style noise
  match load_vgg19_weights pretrainedDict modelDict with
  | Except.error e => Except.error e
  | Except.ok _ => Except.ok (trainRun optUpdates iterations x)

/-- Every image the extractor's forward pass receives over the whole run of
`main`: none when weight loading raises (the exception propagates before
line 63), otherwise the content image, the style image, and then every
closure evaluation's clamped candidate. -/
def mainForwardInputs (pretrainedDict modelDict : StateDict)
    (content style noise : Image) (inputImage : String)
    (optUpdates : Nat → List (Image → Image)) (iterations : Nat) : List Image :=
  match load_vgg19_weights pretrainedDict modelDict with
  | Except.error _ => []
  | Except.ok _ =>
    content :: style ::
      trainForwardInputs optUpdates iterations (initialCandidate inputImage content style noise)

/-! ## Loss-instrumented loop (for the error-handling semantics of train.py
lines 189-221)

The scalar loss returned by a closure evaluation is a numeric value that may
or may not be finite (NaN/Inf under IEEE arithmetic); `LossVal` records the
finiteness flag alongside the value.  `trainRunL` is `train` again, now also
collecting the loss of every closure evaluation, so that statements about
what the loop does after a non-finite loss can be made. -/

structure LossVal where
  val : ℚ
  finite : Bool
deriving DecidableEq

/-- One optimizer step, recording each closure evaluation's loss (computed by
the external differentiable pipeline `lossOf` on the clamped candidate). -/
def stepRunL (lossOf : Image → LossVal) (updates : List (Image → Image))
    (x : Image) : List LossVal × Image :=
  match updates with
  | [] => ([lossOf (clampImage x)], clampImage x)
  | us => us.foldl (fun acc u =>
      let y := clampImage acc.2
      (acc.1 ++ [lossOf y], u y)) (([] : List LossVal), x)

/-- `train` with the per-closure-evaluation losses collected across all outer
steps, ending with the final clamp of line 224. -/
def trainRunL (lossOf : Image → LossVal) (optUpdates : Nat → List (Image → Image))
    (iterations : Nat) (x : Image) : List LossVal × Image :=
  let r := (List.range iterations).foldl
    (fun acc i =>
      let s := stepRunL lossOf (optUpdates i) acc.2
      (acc.1 ++ s.1, s.2))
    (([] : List LossVal), x)
  (r.1, clampImage r.2)

/-! ## Store semantics (in-place mutation of the candidate tensor)

`train` mutates its argument tensor in place (`x.data.clamp_(0, 1)` and the
optimizer's parameter updates all write through the same storage) and returns
`x` itself (line 225).  To state aliasing, tensors live in a store mapping
tensor identities to values; every operation of `train` writes through the single
identity it was given. -/

abbrev TensorId := Nat

abbrev Store := TensorId → Image

/-- In-place `clamp_` on the tensor named `i`. -/
def clampAt (s : Store) (i : TensorId) : Store :=
  Function.update s i (clampImage (s i))

/-- An in-place optimizer update on the tensor named `i`. -/
def updateAt (s : Store) (i : TensorId) (u : Image → Image) : Store :=
  Function.update s i (u (s i))

/-- One `optimizer.step(closure)` acting on the store through tensor `i`. -/
def stepRunStore (updates : List (Image → Image)) (i : TensorId) (s : Store) : Store :=
  match updates with
  | [] => clampAt s i
  | us => us.foldl (fun st u => updateAt (clampAt st i) i u) s

/-- `train` on the store: the outer loop of in-place steps, the final
in-place clamp, and the returned tensor identity (`return x`, line 225). -/
def trainRunStore (optUpdates : Nat → List (Image → Image)) (iterations : Nat)
    (i : TensorId) (s : Store) : Store × TensorId :=
  (clampAt ((List.range iterations).foldl
      (fun st k => stepRunStore (optUpdates k) i st) s) i,
   i)

/-! ## Claims -/

/-- Claim C1: in every closure evaluation of the optimization loop, the scalar
total loss equals `alpha` times the content loss plus `beta` times the sum
over the five style layers of `styleLayerWeight` times that layer's style
loss, where layer `i`'s style loss is scored on the first activation of stage
`i` of the current forward pass and the content loss on the second activation
of stage 4. -/
theorem closure_total_loss_formula
    (modelF : Image → StageOutputs) (contentLossFn : FeatureMap → ℚ)
    (f1 f2 f3 f4 f5 : FeatureMap → ℚ) (alpha beta w : ℚ) (x : Image) :
    closureEval modelF contentLossFn [f1, f2, f3, f4, f5] alpha beta w x =
      alpha * contentLossFn ((modelF (clampImage x)).conv4.getD 1 []) +
        beta * (w * f1 ((modelF (clampImage x)).conv1.getD 0 []) +
                w * f2 ((modelF (clampImage x)).conv2.getD 0 []) +
                w * f3 ((modelF (clampImage x)).conv3.getD 0 []) +
                w * f4 ((modelF (clampImage x)).conv4.getD 0 []) +
                w * f5 ((modelF (clampImage x)).conv5.getD 0 [])) := by
  show (fun outputs =>
      alpha * contentLossFn (closureContentFM outputs) +
        beta * closureTotalStyleLoss w (closureStyleFMs outputs) [f1, f2, f3, f4, f5])
      (modelF (clampImage x)) = _
  simp only [closureContentFM, closureStyleFMs, closureTotalStyleLoss,
    StageOutputs.stage, List.range_succ, List.range_zero, List.map_append,
    List.map_cons, List.map_nil, List.nil_append, List.cons_append,
    List.zip_cons_cons, List.zip_nil_right, List.foldl_cons, List.foldl_nil]
  ring

/-- Claim C4: the content-loss target and the closure's content-side feature
map are the second activation (index 1) of stage `conv4`, and the five style
losses use the first activation (index 0) of stages `conv1` through `conv5`
in order, both when capturing targets in `main` and in every closure
evaluation — all four code selections coincide with the spec's designated
selection. -/
theorem layer_selection_matches_spec (outputs : StageOutputs) :
    mainContentTarget outputs = specContentSelect outputs ∧
    closureContentFM outputs = specContentSelect outputs ∧
    mainStyleTargets outputs = specStyleSelect outputs ∧
    closureStyleFMs outputs = specStyleSelect outputs := by
  refine ⟨rfl, rfl, ?_, ?_⟩ <;>
    simp [mainStyleTargets, closureStyleFMs, specStyleSelect, StageOutputs.stage,
      List.range_succ]

/-- Claim C7: for `iterations = 0` the loop body never runs — no optimizer
step is performed and no closure (hence no forward pass) is evaluated — and
`train` returns the initial candidate with its pixels clamped into [0,1]. -/
theorem train_zero_iterations (optUpdates : Nat → List (Image → Image)) (x : Image) :
    trainRun optUpdates 0 x = clampImage x ∧
    trainForwardInputs optUpdates 0 x = [] := by
  constructor <;> simp [trainRun, trainForwardInputs, candidateAfterStep]

/-- Claim C8: when the requested accelerator is unavailable
(`torch.cuda.is_available()` is false), `main` selects the CPU device — a
total computation that raises nothing — and this single startup selection is
the device every subsequent device-consuming operation of the run receives;
nothing during iteration re-selects it. -/
theorem device_fallback_cpu (cudaAvailable useGpu : Bool)
    (h : cudaAvailable = false) :
    selectDevice cudaAvailable useGpu = Device.cpu ∧
    ∀ d ∈ mainDeviceTrace cudaAvailable useGpu, d = selectDevice cudaAvailable useGpu := by
  subst h
  refine ⟨by simp [selectDevice], ?_⟩
  intro d hd
  simpa [mainDeviceTrace] using hd

/-- Witness for C8 at a concrete input: CUDA absent while the GPU was
requested still selects the CPU for every operation. -/
theorem device_fallback_cpu_witness :
    selectDevice false true = Device.cpu ∧
    ∀ d ∈ mainDeviceTrace false true, d = selectDevice false true :=
  device_fallback_cpu false true rfl

/-- Claim C9: any `input_image` string other than exactly `"content"` and
`"style"` — misspellings and out-of-set values included — falls through to
the `else` branch, so the candidate is initialized from the sampled
standard-normal noise tensor; no branch validates the string and nothing is
raised. -/
theorem initial_candidate_fallback_noise (s : String) (content style noise : Image)
    (h1 : s ≠ "content") (h2 : s ≠ "style") :
    initialCandidate s content style noise = noise := by
  simp [initialCandidate, h1, h2]

/-- Witness for C9 at a concrete input: the documented value `"random-noise"`
is not one of the two recognized strings, so the noise tensor is used. -/
theorem initial_candidate_fallback_noise_witness :
    initialCandidate "random-noise" [1] [2] [3] = [3] :=
  initial_candidate_fallback_noise "random-noise" [1] [2] [3]
    (by decide) (by decide)

/-! ## Clamp bounds and closure-trace lemmas -/

theorem clampPixel_nonneg (v : ℚ) : 0 ≤ clampPixel v := le_max_left 0 _

theorem clampPixel_le_one (v : ℚ) : clampPixel v ≤ 1 :=
  max_le (by norm_num) (min_le_left 1 v)

theorem clampImage_bounds (img : Image) : ∀ v ∈ clampImage img, 0 ≤ v ∧ v ≤ 1 := by
  intro v hv
  rcases List.mem_map.mp hv with ⟨w, _, rfl⟩
  exact ⟨clampPixel_nonneg w, clampPixel_le_one w⟩

theorem stepRun_foldl_trace_clamped (us : List (Image → Image)) :
    ∀ (acc : List Image × Image),
      (∀ img ∈ acc.1, ∃ y, img = clampImage y) →
      ∀ img ∈ (us.foldl
          (fun acc u => let y := clampImage acc.2; (acc.1 ++ [y], u y)) acc).1,
        ∃ y, img = clampImage y := by
  induction us with
  | nil => intro acc h img hm; simpa using h img (by simpa using hm)
  | cons u us ih =>
    intro acc h img hm
    rw [List.foldl_cons] at hm
    refine ih _ ?_ img hm
    intro im hi
    rcases List.mem_append.mp hi with h1 | h2
    · exact h im h1
    · rw [List.mem_singleton.mp h2]
      exact ⟨acc.2, rfl⟩

theorem stepRun_trace_clamped (updates : List (Image → Image)) (x : Image) :
    ∀ img ∈ (stepRun updates x).1, ∃ y, img = clampImage y := by
  cases updates with
  | nil =>
    intro img h
    exact ⟨x, List.mem_singleton.mp h⟩
  | cons u us =>
    intro img h
    exact stepRun_foldl_trace_clamped (u :: us) ([], x) (by simp) img h

theorem trainTrace_foldl_clamped (optU : Nat → List (Image → Image)) (l : List Nat) :
    ∀ (acc : List Image × Image),
      (∀ img ∈ acc.1, ∃ y, img = clampImage y) →
      ∀ img ∈ (l.foldl
          (fun acc i => let s := stepRun (optU i) acc.2; (acc.1 ++ s.1, s.2)) acc).1,
        ∃ y, img = clampImage y := by
  induction l with
  | nil => intro acc h img hm; simpa using h img (by simpa using hm)
  | cons i l ih =>
    intro acc h img hm
    rw [List.foldl_cons] at hm
    refine ih _ ?_ img hm
    intro im hi
    rcases List.mem_append.mp hi with h1 | h2
    · exact h im h1
    · exact stepRun_trace_clamped (optU i) acc.2 im h2

theorem trainForwardInputs_clamped (optU : Nat → List (Image → Image)) (n : Nat)
    (x : Image) : ∀ img ∈ trainForwardInputs optU n x, ∃ y, img = clampImage y := by
  intro img hm
  exact trainTrace_foldl_clamped optU (List.range n) ([], x) (by simp) img hm

/-- Claim C2 (amended): the in-place clamp runs at the start of every closure
evaluation, so every image the forward pass sees during optimization has all
pixel values in [0,1], and the image `train` returns is clamped into [0,1];
(the claim's stronger statement — that the candidate is still within [0,1]
immediately after an optimizer step's internal update, before the next
clamp — fails, see the counterexample). -/
theorem candidate_bounds_at_closure_and_output (optU : Nat → List (Image → Image))
    (n : Nat) (x : Image) :
    (∀ img ∈ trainForwardInputs optU n x, ∀ v ∈ img, 0 ≤ v ∧ v ≤ 1) ∧
    (∀ v ∈ trainRun optU n x, 0 ≤ v ∧ v ≤ 1) := by
  constructor
  · intro img hm v hv
    rcases trainForwardInputs_clamped optU n x img hm with ⟨y, rfl⟩
    exact clampImage_bounds y v hv
  · intro v hv
    exact clampImage_bounds _ v hv

/-- Witness for (amended) C2 at a concrete run: one step whose single closure
evaluation sees the clamped candidate `[0]`, whose pixel obeys the bounds,
and whose final output pixel (the update wrote 5, clamped back to 1) obeys
the bounds as well. -/
theorem candidate_bounds_at_closure_and_output_witness :
    ((0:ℚ) ≤ 0 ∧ (0:ℚ) ≤ 1) ∧ ((0:ℚ) ≤ 1 ∧ (1:ℚ) ≤ 1) := by
  have h := candidate_bounds_at_closure_and_output
    (fun _ => [fun _ => [5]]) 1 [0]
  exact ⟨h.1 [0] (by decide) 0 (by decide),
         h.2 1 (by decide)⟩

/-- An optimizer whose single update per step writes the out-of-range value 2
into the candidate (LBFGS updates are unconstrained external arithmetic). -/
def cexUpdatesC2 : Nat → List (Image → Image) := fun _ => [fun _ => [2]]

/-- Counterexample to C2 as stated: immediately after the first optimizer
step — an observable loop boundary when further iterations remain — the
candidate holds the pixel value 2, outside [0,1]; the clamp only runs again
at the start of the next closure evaluation (or at line 224 after the final
step). -/
theorem candidate_escapes_range_after_step :
    candidateAfterStep cexUpdatesC2 [0] 1 = [2] ∧
    ¬ (∀ v ∈ candidateAfterStep cexUpdatesC2 [0] 1, 0 ≤ v ∧ v ≤ 1) := by
  decide

/-! ## The loop never consults the loss values (C5 infrastructure) -/

theorem stepRunL_sim (lossOf : Image → LossVal) (us : List (Image → Image)) :
    ∀ (accL : List LossVal × Image) (accI : List Image × Image),
      accL.2 = accI.2 → accL.1.length = accI.1.length →
      (us.foldl (fun acc u => let y := clampImage acc.2; (acc.1 ++ [lossOf y], u y)) accL).2 =
        (us.foldl (fun acc u => let y := clampImage acc.2; (acc.1 ++ [y], u y)) accI).2 ∧
      (us.foldl (fun acc u => let y := clampImage acc.2; (acc.1 ++ [lossOf y], u y)) accL).1.length =
        (us.foldl (fun acc u => let y := clampImage acc.2; (acc.1 ++ [y], u y)) accI).1.length := by
  induction us with
  | nil => intro accL accI h2 h1; simpa using ⟨h2, h1⟩
  | cons u us ih =>
    intro accL accI h2 h1
    rw [List.foldl_cons, List.foldl_cons]
    exact ih _ _ (by simp [h2]) (by simp [h1])

theorem stepRunL_snd (lossOf : Image → LossVal) (us : List (Image → Image)) (x : Image) :
    (stepRunL lossOf us x).2 = (stepRun us x).2 := by
  cases us with
  | nil => rfl
  | cons u us => exact (stepRunL_sim lossOf (u :: us) ([], x) ([], x) rfl rfl).1

theorem stepRunL_length (lossOf : Image → LossVal) (us : List (Image → Image)) (x : Image) :
    (stepRunL lossOf us x).1.length = (stepRun us x).1.length := by
  cases us with
  | nil => rfl
  | cons u us => exact (stepRunL_sim lossOf (u :: us) ([], x) ([], x) rfl rfl).2

theorem trainRunL_sim (lossOf : Image → LossVal) (optU : Nat → List (Image → Image))
    (l : List Nat) :
    ∀ (accL : List LossVal × Image) (accI : List Image × Image),
      accL.2 = accI.2 → accL.1.length = accI.1.length →
      (l.foldl (fun acc i =>
          let s := stepRunL lossOf (optU i) acc.2; (acc.1 ++ s.1, s.2)) accL).2 =
        (l.foldl (fun acc i =>
          let s := stepRun (optU i) acc.2; (acc.1 ++ s.1, s.2)) accI).2 ∧
      (l.foldl (fun acc i =>
          let s := stepRunL lossOf (optU i) acc.2; (acc.1 ++ s.1, s.2)) accL).1.length =
        (l.foldl (fun acc i =>
          let s := stepRun (optU i) acc.2; (acc.1 ++ s.1, s.2)) accI).1.length := by
  induction l with
  | nil => intro accL accI h2 h1; simpa using ⟨h2, h1⟩
  | cons i l ih =>
    intro accL accI h2 h1
    rw [List.foldl_cons, List.foldl_cons]
    exact ih _ _ (by simp [h2, stepRunL_snd]) (by simp [h1, h2, stepRunL_length])

theorem trainPairFold_snd (optU : Nat → List (Image → Image)) (l : List Nat) :
    ∀ acc : List Image × Image,
      (l.foldl (fun acc i =>
          let s := stepRun (optU i) acc.2; (acc.1 ++ s.1, s.2)) acc).2 =
      l.foldl (fun x i => (stepRun (optU i) x).2) acc.2 := by
  induction l with
  | nil => intro acc; rfl
  | cons i l ih => intro acc; rw [List.foldl_cons, List.foldl_cons]; exact ih _

/-- Claim C5 (amended): the loop performs no finiteness check at all — the
candidate trajectory and the number of closure evaluations of a run are
independent of the loss values produced (finite or not): whatever `lossOf`
returns, `train` runs to completion and returns `trainRun`'s image.  No
`NumericInstabilityError` exists in the code. -/
theorem loss_values_never_consulted (lossOf lossOf' : Image → LossVal)
    (optU : Nat → List (Image → Image)) (n : Nat) (x : Image) :
    (trainRunL lossOf optU n x).2 = trainRun optU n x ∧
    (trainRunL lossOf optU n x).1.length = (trainRunL lossOf' optU n x).1.length := by
  constructor
  · show clampImage _ = clampImage _
    rw [(trainRunL_sim lossOf optU (List.range n) ([], x) ([], x) rfl rfl).1,
      trainPairFold_snd]
    rfl
  · show ((List.range n).foldl (fun acc i =>
        let s := stepRunL lossOf (optU i) acc.2; (acc.1 ++ s.1, s.2))
        (([] : List LossVal), x)).1.length =
      ((List.range n).foldl (fun acc i =>
        let s := stepRunL lossOf' (optU i) acc.2; (acc.1 ++ s.1, s.2))
        (([] : List LossVal), x)).1.length
    rw [(trainRunL_sim lossOf optU (List.range n) ([], x) ([], x) rfl rfl).2,
      (trainRunL_sim lossOf' optU (List.range n) ([], x) ([], x) rfl rfl).2]

/-- A differentiable pipeline whose every loss is non-finite (NaN/Inf). -/
def cexLossOf : Image → LossVal := fun _ => ⟨0, false⟩

/-- An optimizer applying one identity update per step (so each of the two
outer steps evaluates the closure exactly once). -/
def cexUpdatesC5 : Nat → List (Image → Image) := fun _ => [fun y => y]

/-- Counterexample to C5 as stated: in a two-iteration run every closure
evaluation — the first included — produces a non-finite loss, yet a second
closure evaluation still runs (the collected loss trace has two entries) and
`train` returns normally; nothing aborts and no error is raised. -/
theorem nonfinite_loss_iteration_continues :
    (trainRunL cexLossOf cexUpdatesC5 2 [0]).1.map LossVal.finite = [false, false] ∧
    (trainRunL cexLossOf cexUpdatesC5 2 [0]).2 = [0] := by
  decide

/-! ## Store semantics lemmas (C10 infrastructure) -/

theorem clampAt_self (s : Store) (i : TensorId) : clampAt s i i = clampImage (s i) := by
  unfold clampAt
  exact Function.update_same i (clampImage (s i)) s

theorem clampAt_other (s : Store) (i j : TensorId) (h : j ≠ i) : clampAt s i j = s j := by
  unfold clampAt
  exact Function.update_noteq h (clampImage (s i)) s

theorem updateAt_self (s : Store) (i : TensorId) (u : Image → Image) :
    updateAt s i u i = u (s i) := by
  unfold updateAt
  exact Function.update_same i (u (s i)) s

theorem updateAt_other (s : Store) (i j : TensorId) (u : Image → Image) (h : j ≠ i) :
    updateAt s i u j = s j := by
  unfold updateAt
  exact Function.update_noteq h (u (s i)) s

theorem stepStoreFold_sim (i : TensorId) (us : List (Image → Image)) :
    ∀ s : Store,
      (us.foldl (fun st u => updateAt (clampAt st i) i u) s) i =
        us.foldl (fun y u => u (clampImage y)) (s i) ∧
      ∀ j, j ≠ i → (us.foldl (fun st u => updateAt (clampAt st i) i u) s) j = s j := by
  induction us with
  | nil => intro s; exact ⟨rfl, fun j _ => rfl⟩
  | cons u us ih =>
    intro s
    rw [List.foldl_cons, List.foldl_cons]
    constructor
    · rw [(ih _).1, updateAt_self, clampAt_self]
    · intro j hj
      rw [(ih _).2 j hj, updateAt_other _ _ _ _ hj, clampAt_other _ _ _ hj]

theorem stepPairFold_snd (us : List (Image → Image)) :
    ∀ acc : List Image × Image,
      (us.foldl (fun acc u => let y := clampImage acc.2; (acc.1 ++ [y], u y)) acc).2 =
      us.foldl (fun y u => u (clampImage y)) acc.2 := by
  induction us with
  | nil => intro acc; rfl
  | cons u us ih => intro acc; rw [List.foldl_cons, List.foldl_cons]; exact ih _

theorem stepRunStore_self (us : List (Image → Image)) (i : TensorId) (s : Store) :
    stepRunStore us i s i = (stepRun us (s i)).2 := by
  cases us with
  | nil => exact clampAt_self s i
  | cons u us =>
    show (((u :: us).foldl (fun st v => updateAt (clampAt st i) i v) s)) i = _
    rw [(stepStoreFold_sim i (u :: us) s).1]
    exact (stepPairFold_snd (u :: us) ([], s i)).symm

theorem stepRunStore_other (us : List (Image → Image)) (i j : TensorId) (s : Store)
    (h : j ≠ i) : stepRunStore us i s j = s j := by
  cases us with
  | nil => exact clampAt_other s i j h
  | cons u us => exact (stepStoreFold_sim i (u :: us) s).2 j h

theorem loopStore_sim (optU : Nat → List (Image → Image)) (i : TensorId)
    (l : List Nat) :
    ∀ s : Store,
      (l.foldl (fun st k => stepRunStore (optU k) i st) s) i =
        l.foldl (fun x k => (stepRun (optU k) x).2) (s i) ∧
      ∀ j, j ≠ i → (l.foldl (fun st k => stepRunStore (optU k) i st) s) j = s j := by
  induction l with
  | nil => intro s; exact ⟨rfl, fun j _ => rfl⟩
  | cons k l ih =>
    intro s
    rw [List.foldl_cons, List.foldl_cons]
    constructor
    · rw [(ih _).1, stepRunStore_self]
    · intro j hj
      rw [(ih _).2 j hj, stepRunStore_other _ _ _ _ hj]

/-- Claim C10: `train` mutates the candidate tensor it receives through its
storage — the clamps and every optimizer update write in place — and returns
the very same tensor identity (`return x`), so after `train` returns, the
returned output and the caller's input candidate name the same tensor, whose
value is the trained image; no other tensor in the store is touched. -/
theorem train_in_place_aliasing (optU : Nat → List (Image → Image)) (n : Nat)
    (i : TensorId) (s : Store) :
    (trainRunStore optU n i s).2 = i ∧
    (trainRunStore optU n i s).1 i = trainRun optU n (s i) ∧
    ∀ j, j ≠ i → (trainRunStore optU n i s).1 j = s j := by
  refine ⟨rfl, ?_, ?_⟩
  · show clampAt _ i i = _
    rw [clampAt_self, (loopStore_sim optU i (List.range n) s).1]
    rfl
  · intro j hj
    show clampAt _ i j = s j
    rw [clampAt_other _ _ _ hj, (loopStore_sim optU i (List.range n) s).2 j hj]

/-- Witness for C10 at a concrete input: a zero-iteration run through tensor
identity 0 of a two-tensor store — the returned identity is 0, its value is
the clamped input `[2] ↦ [1]`, and the unrelated tensor 1 is untouched. -/
theorem train_in_place_aliasing_witness :
    (trainRunStore (fun _ => []) 0 0 (fun _ => [2])).2 = 0 ∧
    (trainRunStore (fun _ => []) 0 0 (fun _ => [2])).1 0 =
      trainRun (fun _ => []) 0 [2] ∧
    (trainRunStore (fun _ => []) 0 0 (fun _ => [2])).1 1 = [2] := by
  obtain ⟨h1, h2, h3⟩ := train_in_place_aliasing (fun _ => []) 0 0 (fun _ => [2])
  exact ⟨h1, h2, h3 1 (by decide)⟩

/-! ## Dictionary and weight-loading lemmas (C3/C6 infrastructure) -/

theorem dictLookup_dictSet_self (d : StateDict) (k : String) (v : PTensor) :
    dictLookup (dictSet d k v) k = some v := by
  induction d with
  | nil => simp [dictSet, dictLookup]
  | cons e rest ih =>
    by_cases h : e.1 = k
    · simp [dictSet, h, dictLookup]
    · simp [dictSet, h, dictLookup, ih]

theorem dictLookup_dictSet_other (d : StateDict) (k k' : String) (v : PTensor)
    (h : k' ≠ k) : dictLookup (dictSet d k v) k' = dictLookup d k' := by
  induction d with
  | nil => simp [dictSet, dictLookup, Ne.symm h]
  | cons e rest ih =>
    by_cases he : e.1 = k
    · simp [dictSet, he, dictLookup, Ne.symm h, ih]
    · by_cases he' : e.1 = k'
      · simp [dictSet, he, dictLookup, he', h, ih]
      · simp [dictSet, he, dictLookup, he', ih]

theorem dictLookup_mem (d : StateDict) (k : String) (t : PTensor)
    (h : dictLookup d k = some t) : (k, t) ∈ d := by
  induction d with
  | nil => simp [dictLookup] at h
  | cons e rest ih =>
    by_cases he : e.1 = k
    · rw [dictLookup, if_pos he] at h
      have : e = (k, t) := by
        rcases e with ⟨e1, e2⟩
        simp only at he
        simp only [Option.some.injEq] at h
        rw [he, h]
      rw [← this]
      exact List.mem_cons_self e rest
    · rw [dictLookup, if_neg he] at h
      exact List.mem_cons_of_mem _ (ih h)

theorem applyMatching_missing (p : StateDict) (keys : List (String × String)) :
    ∀ (md : StateDict) (k₁ k₂ : String), (k₁, k₂) ∈ keys → dictLookup p k₂ = none →
      ∃ e, applyMatching keys p md = Except.error e := by
  induction keys with
  | nil => intro md k₁ k₂ hmem _; simp at hmem
  | cons kv rest ih =>
    intro md k₁ k₂ hmem hp
    rcases List.mem_cons.mp hmem with heq | htail
    · subst heq
      exact ⟨LoadError.keyError k₂, by simp [applyMatching, hp]⟩
    · cases hlp : dictLookup p kv.2 with
      | none => exact ⟨LoadError.keyError kv.2, by simp [applyMatching, hlp]⟩
      | some t =>
        rcases ih (dictSet md kv.1 t) k₁ k₂ htail hp with ⟨e, he⟩
        exact ⟨e, by simp [applyMatching, hlp, he]⟩

theorem applyMatching_preserve (p : StateDict) (keys : List (String × String)) :
    ∀ (md md' : StateDict) (k : String), applyMatching keys p md = Except.ok md' →
      k ∉ keys.map Prod.fst → dictLookup md' k = dictLookup md k := by
  induction keys with
  | nil =>
    intro md md' k h _
    simp [applyMatching] at h
    rw [h]
  | cons kv rest ih =>
    intro md md' k h hk
    simp only [List.map_cons, List.mem_cons, not_or] at hk
    cases hlp : dictLookup p kv.2 with
    | none => simp [applyMatching, hlp] at h
    | some t =>
      simp only [applyMatching, hlp] at h
      rw [ih _ _ _ h hk.2, dictLookup_dictSet_other _ _ _ _ hk.1]

theorem applyMatching_sets (p : StateDict) (keys : List (String × String)) :
    ∀ (md md' : StateDict) (k₁ k₂ : String) (t : PTensor),
      (keys.map Prod.fst).Nodup → (k₁, k₂) ∈ keys → dictLookup p k₂ = some t →
      applyMatching keys p md = Except.ok md' → dictLookup md' k₁ = some t := by
  induction keys with
  | nil => intro md md' k₁ k₂ t _ hmem _ _; simp at hmem
  | cons kv rest ih =>
    intro md md' k₁ k₂ t hnd hmem hp h
    rw [List.map_cons, List.nodup_cons] at hnd
    rcases List.mem_cons.mp hmem with heq | htail
    · subst heq
      simp only [applyMatching, hp] at h
      rw [applyMatching_preserve p rest _ _ _ h hnd.1, dictLookup_dictSet_self]
    · cases hlp : dictLookup p kv.2 with
      | none => simp [applyMatching, hlp] at h
      | some t' =>
        simp only [applyMatching, hlp] at h
        exact ih _ _ _ _ _ hnd.2 htail hp h

theorem load_state_dict_shape_error (modelDict md : StateDict) (k : String)
    (t t₀ : PTensor) (hm : dictLookup md k = some t)
    (h0 : dictLookup modelDict k = some t₀) (hne : t.shape ≠ t₀.shape) :
    load_state_dict modelDict md = Except.error LoadError.stateDictError := by
  have hmem : (k, t₀) ∈ modelDict := dictLookup_mem _ _ _ h0
  unfold load_state_dict
  split
  · rename_i hcond
    exfalso
    have hall := (Bool.and_eq_true _ _).mp hcond |>.2
    have hthis := List.all_eq_true.mp hall (k, t₀) hmem
    simp only [hm] at hthis
    simp only [decide_eq_true_eq] at hthis
    exact hne hthis
  · rfl

theorem load_vgg19_weights_eq_error (p md : StateDict) (e : LoadError)
    (happ : applyMatching matching_keys p md = Except.error e) :
    load_vgg19_weights p md = Except.error e := by
  unfold load_vgg19_weights
  rw [happ]

theorem load_vgg19_weights_eq_ok (p md m : StateDict)
    (happ : applyMatching matching_keys p md = Except.ok m) :
    load_vgg19_weights p md = load_state_dict md m := by
  unfold load_vgg19_weights
  rw [happ]

theorem load_vgg19_weights_ok_elim (p md md' : StateDict)
    (h : load_vgg19_weights p md = Except.ok md') :
    applyMatching matching_keys p md = Except.ok md' := by
  cases happ : applyMatching matching_keys p md with
  | error e =>
    rw [load_vgg19_weights_eq_error p md e happ] at h
    exact Except.noConfusion h
  | ok m =>
    rw [load_vgg19_weights_eq_ok p md m happ] at h
    unfold load_state_dict at h
    split at h
    · simp only [Except.ok.injEq] at h
      exact congrArg Except.ok h
    · exact Except.noConfusion h

/-- Claim C3 (amended): the correspondence table supplies a mapped pretrained
value for every learnable parameter of the actual five-stage extractor (the
32 convolution weights and biases); however, when a model has a learnable
parameter name the table does not map, `load_vgg19_weights` raises nothing —
it completes and that parameter silently retains its initial value (no
`WeightMappingError` exists in the code). -/
theorem weight_mapping_exhaustive_but_silent (p md md' : StateDict) (k : String)
    (hok : load_vgg19_weights p md = Except.ok md')
    (hk : k ∉ matching_keys.map Prod.fst) :
    (∀ name ∈ vgg19ParamNames, name ∈ matching_keys.map Prod.fst) ∧
    dictLookup md' k = dictLookup md k := by
  refine ⟨by decide, ?_⟩
  exact applyMatching_preserve p matching_keys md md' k
    (load_vgg19_weights_ok_elim p md md' hok) hk

instance : DecidableEq (Except LoadError StateDict) := fun a b =>
  match a, b with
  | Except.error e, Except.error e' =>
    if h : e = e' then isTrue (by rw [h])
    else isFalse (fun hc => h (Except.error.inj hc))
  | Except.ok m, Except.ok m' =>
    if h : m = m' then isTrue (by rw [h])
    else isFalse (fun hc => h (Except.ok.inj hc))
  | Except.error _, Except.ok _ => isFalse (fun hc => Except.noConfusion hc)
  | Except.ok _, Except.error _ => isFalse (fun hc => Except.noConfusion hc)

/-- A pretrained source supplying every identifier the table references, each
as a tensor of shape `[1]` with payload 7. -/
def cexPretrained : StateDict := matching_keys.map (fun pr => (pr.2, ⟨[1], 7⟩))

/-- A model state dict with the 32 mapped parameters (initial payload 0) plus
one extra learnable parameter `extra.weight` the table does not map. -/
def cexModelDict : StateDict :=
  matching_keys.map (fun pr => (pr.1, ⟨[1], 0⟩)) ++ [("extra.weight", ⟨[1], 0⟩)]

/-- The state dict `load_vgg19_weights` commits for `cexModelDict`: all 32
mapped parameters now carry the pretrained payload 7, while `extra.weight`
still carries its initial payload 0. -/
def cexLoaded : StateDict :=
  matching_keys.map (fun pr => (pr.1, ⟨[1], 7⟩)) ++ [("extra.weight", ⟨[1], 0⟩)]

/-- Counterexample to C3 as stated: on a model whose state dict has the
unmapped learnable parameter `extra.weight`, weight loading completes
without raising anything, and the unmapped parameter is left at its initial
value — no `WeightMappingError` is raised before the first forward pass. -/
theorem unmapped_param_silently_kept :
    load_vgg19_weights cexPretrained cexModelDict = Except.ok cexLoaded ∧
    dictLookup cexLoaded "extra.weight" = some ⟨[1], 0⟩ := by
  decide

/-- Witness for (amended) C3 at a concrete input: applying the amended
theorem to the run on `cexModelDict` and its unmapped key. -/
theorem weight_mapping_exhaustive_but_silent_witness :
    (∀ name ∈ vgg19ParamNames, name ∈ matching_keys.map Prod.fst) ∧
    dictLookup cexLoaded "extra.weight" = dictLookup cexModelDict "extra.weight" :=
  weight_mapping_exhaustive_but_silent cexPretrained cexModelDict cexLoaded
    "extra.weight" (by decide) (by decide)

/-- Claim C6: when the correspondence table references a pretrained parameter
identifier absent from the pretrained source (a `KeyError` at
`pretrained_dict[value]`), or maps a pretrained tensor whose shape does not
match the extractor's parameter (a strict `load_state_dict` failure), weight
loading fails fatally; `main` aborts with that error and the extractor's
forward pass is never run (targets are only captured after line 58). -/
theorem weight_loading_fails_before_forward
    (p md : StateDict) (modelF : Image → StageOutputs)
    (content style noise : Image) (inputImage : String)
    (optU : Nat → List (Image → Image)) (n : Nat) (k₁ k₂ : String)
    (hmem : (k₁, k₂) ∈ matching_keys)
    (hfail : dictLookup p k₂ = none ∨
      ∃ t t₀, dictLookup p k₂ = some t ∧ dictLookup md k₁ = some t₀ ∧
        t.shape ≠ t₀.shape) :
    ∃ e, load_vgg19_weights p md = Except.error e ∧
      mainRun p md modelF content style noise inputImage optU n = Except.error e ∧
      mainForwardInputs p md content style noise inputImage optU n = [] := by
  have hload : ∃ e, load_vgg19_weights p md = Except.error e := by
    rcases hfail with hnone | ⟨t, t₀, hp, hm, hne⟩
    · rcases applyMatching_missing p matching_keys md k₁ k₂ hmem hnone with ⟨e, he⟩
      exact ⟨e, by unfold load_vgg19_weights; rw [he]⟩
    · cases happ : applyMatching matching_keys p md with
      | error e => exact ⟨e, by unfold load_vgg19_weights; rw [happ]⟩
      | ok m =>
        have hset : dictLookup m k₁ = some t :=
          applyMatching_sets p matching_keys md m k₁ k₂ t (by decide) hmem hp happ
        refine ⟨LoadError.stateDictError, ?_⟩
        unfold load_vgg19_weights
        rw [happ]
        exact load_state_dict_shape_error md m k₁ t t₀ hset hm hne
  rcases hload with ⟨e, he⟩
  exact ⟨e, he, by simp [mainRun, he], by simp [mainForwardInputs, he]⟩

/-- Witness for C6 at a concrete input: an empty pretrained source is missing
the first referenced identifier `0.weight`, so loading errors and `main`
performs no forward pass. -/
theorem weight_loading_fails_before_forward_witness :
    ∃ e, load_vgg19_weights [] [] = Except.error e ∧
      mainRun [] [] (fun _ => ⟨[], [], [], [], []⟩) [] [] [] "content"
        (fun _ => []) 0 = Except.error e ∧
      mainForwardInputs [] [] [] [] [] "content" (fun _ => []) 0 = [] :=
  weight_loading_fails_before_forward [] [] (fun _ => ⟨[], [], [], [], []⟩)
    [] [] [] "content" (fun _ => []) 0 "conv1.conv1.weight" "0.weight"
    (by decide) (Or.inl rfl)

end NST
